import Mathlib

/-!
# Verification of `images/base/filers_common.py`

A shallow embedding of the filer path-resolution and environment-lookup
module, together with theorems settling the specification claims.

Conventions of the embedding:

* Python strings are Lean `String`s; most processing is done on the
  underlying `List Char` (`String.toList` / `String.mk`).
* `str.lower()` / `str.upper()` are modelled character-wise by
  `pyLowerChar` / `pyUpperChar`, which reproduce Python's Unicode case
  mapping exactly on the code points U+0000..U+00FF (ASCII and Latin-1,
  including the one-to-many full mapping of U+00DF, for which `upper` is
  `Char → List Char` and strings are upper-cased with `flatMap`).
  Higher code points are left fixed, a documented restriction: every
  alias-table entry and marker word is ASCII, and the case-sensitivity
  theorems below quantify only inside the exactly-modelled range.
* The process environment (`os.environ` / `os.getenv`) is modelled as an
  injected lookup function `Env := String → Option String`; for
  `get_all_filers`, which iterates over the environment, it is an
  association list whose order models the iteration order.
* `os.environ[k]` (which raises `KeyError` when absent) and the explicit
  `raise OSError(...)` calls are modelled with `Except FilerError`.
* Anchored `re.sub(r"^...", "", path)` calls are modelled by functions
  that remove the unique leftmost match (with `^` and no `re.MULTILINE`
  the pattern can only match at position 0, so at most one removal
  happens per call).
-/

/-- Python's per-character lower-case mapping, exact on U+0000..U+00FF:
`A`..`Z` map down by 32, and the Latin-1 capitals `À`(U+00C0)..`Þ`(U+00DE)
except `×`(U+00D7) map down by 32; nothing else in that range changes
(`ß` and `ÿ` are already lower-case, `µ` has no lower mapping).  Code
points above U+00FF are left fixed (restriction of the model). -/
def pyLowerChar (c : Char) : Char :=
  if 65 ≤ c.toNat ∧ c.toNat ≤ 90 then Char.ofNat (c.toNat + 32)
  else if (192 ≤ c.toNat ∧ c.toNat ≤ 222) ∧ ¬ c.toNat = 215 then
    Char.ofNat (c.toNat + 32)
  else c

/-- Python's per-character upper-case full mapping, exact on
U+0000..U+00FF: `a`..`z` map up by 32; `ß`(U+00DF) expands to `"SS"`
(Python's one-to-many full case mapping); the Latin-1 small letters
`à`(U+00E0)..`þ`(U+00FE) except `÷`(U+00F7) map up by 32;
`µ`(U+00B5) maps to `Μ`(U+039C) and `ÿ`(U+00FF) to `Ÿ`(U+0178).  Code
points above U+00FF are left fixed (restriction of the model). -/
def pyUpperChar (c : Char) : List Char :=
  if 97 ≤ c.toNat ∧ c.toNat ≤ 122 then [Char.ofNat (c.toNat - 32)]
  else if c.toNat = 223 then ['S', 'S']
  else if (224 ≤ c.toNat ∧ c.toNat ≤ 254) ∧ ¬ c.toNat = 247 then
    [Char.ofNat (c.toNat - 32)]
  else if c.toNat = 181 then [Char.ofNat 924]
  else if c.toNat = 255 then [Char.ofNat 376]
  else [c]

/-- Python `str.lower()`: `pyLowerChar` over the characters. -/
def pyLower (s : String) : String :=
  String.mk (s.toList.map pyLowerChar)

/-- Python `str.upper()`: `pyUpperChar` over the characters; the
one-to-many mapping of `ß` makes this a `flatMap`. -/
def pyUpper (s : String) : String :=
  String.mk (s.toList.flatMap pyUpperChar)

/-- The character class `[\/\.]` of the stripping regexes. -/
def isDotSlash (c : Char) : Bool :=
  c == '/' || c == '.'

/-- Models `re.sub(r"\\", "/", path)`, which acts on each character. -/
def toSlash (c : Char) : Char :=
  if c = '\\' then '/' else c

/-- Case-insensitive literal word match (the word is given lower-cased):
if `cs` starts with `word` up to `Char.toLower`, return the remainder. -/
def matchWordCI : List Char → List Char → Option (List Char)
  | [], cs => some cs
  | _ :: _, [] => none
  | w :: ws, c :: cs => if c.toLower = w then matchWordCI ws cs else none

/-- Models `[\/]+`: require at least one `/`, consume the maximal run (greedy,
nothing follows the run in the patterns that use it). -/
def matchSlashes : List Char → Option (List Char)
  | [] => none
  | c :: cs => if c = '/' then some (cs.dropWhile (fun x => x == '/')) else none

/-- Matcher for the anchored pattern `^[\/\.]*{word}[\/]+` with
`re.IGNORECASE` (and, when `optS` is true, an optional `s{0,1}` after the
word, as in `filers{0,1}`): returns the remainder after the match, or
`none` when the pattern does not match at the start.  The leading
`[\/\.]*` must take the maximal run of `/` and `.` because every word
starts with a letter; the greedy `s{0,1}` branch is tried first and the
engine backtracks to the empty branch when no slash follows the `s`.
The greedy branch `s[\/]+` is `matchSOptThenSlashes`. -/
def matchSOptThenSlashes : List Char → Option (List Char)
  | [] => none
  | c :: tl => if c.toLower = 's' then matchSlashes tl else none

/-- See `matchSOptThenSlashes` above for the pattern matched here. -/
def matchMarker (word : List Char) (optS : Bool) (cs : List Char) : Option (List Char) :=
  match matchWordCI word (cs.dropWhile isDotSlash) with
  | none => none
  | some r1 =>
    match (if optS then matchSOptThenSlashes r1 else none) with
    | some r => some r
    | none => matchSlashes r1

/-- Models `re.sub(r"^[\/\.]*{word}s?[\/]+", "", cs)`: remove the single
leftmost (anchored) match if there is one. -/
def stripMarker (word : List Char) (optS : Bool) (cs : List Char) : List Char :=
  match matchMarker word optS cs with
  | some r => r
  | none => cs

/-- Core of `process_filer_path` on character lists: the five `re.sub`
steps of the source in order (backslashes, `home`, `jovyan`,
`filer(s)`, leading dots/slashes). -/
def processCore (cs : List Char) : List Char :=
  let c1 := cs.map toSlash
  let c2 := stripMarker "home".toList false c1
  let c3 := stripMarker "jovyan".toList false c2
  let c4 := stripMarker "filer".toList true c3
  c4.dropWhile isDotSlash

/-- Embeds `process_filer_path(path)`: remove various leading prefixes from a
filer path. -/
def process_filer_path (path : String) : String :=
  String.mk (processCore path.toList)

/-- The `FILER_ALIASES` table of the source, as an ordered association
list (Python dicts preserve insertion order, and
`remap_filer_aliases` scans in that order). -/
def FILER_ALIASES : List (String × List String) :=
  [ ("fld3filersvm",
     ["assdnt2", "assdnt20", "assdntcad", "fld3file1", "fld3filer"]),
    ("fld4filersvm",
     ["bop600", "imad3", "imad4", "imaddiskfarm", "meaddata", "pid6",
      "fld4filer"]),
    ("fld5filersvm",
     ["agric", "btsapps", "btssce", "dtd1", "iofd1", "itd1lm", "itd3lm",
      "mced1nt", "mced2nt", "pipes1", "pricesfp01", "serv01", "serv02",
      "servtax", "sieid2", "fld5filer", "tranfs"]),
    ("fld6filersvm",
     ["brd2", "brdfcdm", "geo", "geoapps", "geodepot2", "geoenterprise",
      "meth1", "meth4", "ottfifp03", "ottfifp04", "stds1", "fld6filer"]),
    ("fld7filersvm",
     ["alpha", "eit-awsfs-dev1", "g-spec", "mtlfp01", "oidhome", "oidnt6",
      "oidnt7", "ordd1", "orddghost", "rob1", "rob3", "robweb",
      "yeti-awsfs-dev1", "fld7filer"]),
    ("fld8filersvm",
     ["ccjsnt1", "co1", "codalg3", "codcola", "codfile", "csmp", "ctces01",
      "ctces02", "dem4", "eit-awsfs-stg1", "hfss3", "lhs1", "lhs2", "lhs3",
      "lhs4", "lhs5", "lhs6", "saad1", "sasd6", "fld8filer"]),
    ("fld9filersvm",
     ["blmamwnt", "hamg1", "hlth", "hlth_apps", "hlth_projects",
      "hlth_users", "semg1", "fld9filer"]),
    ("stcffb03svm",
     ["stcffb03", "eit-bwsfs-dev1", "f6stcffb01", "stcffb01",
      "yeti-bwsfs-dev1"]),
    ("stdcflr_sasfs10svm", ["stdcflr-sasfs10"]),
    ("stdcflr_sasfs20svm", ["sttcflr-sasfs20", "ibspdatatest"]),
    ("stmcflr_sasfs61svm", ["stmcflr-sasfs61", "ibspdatamgmt"]),
    ("stpcflr_sasfs50svm", ["stpcflr-sasfs50", "f8lad", "ibspdata"]),
    ("stqcflr_sasfs40svm", ["stqcflr-sasfs40", "ibspdataqa"]),
    ("sttcflr_sasfs10svm", ["ibspdatadev"]),
    ("stucflr_sasfs30svm", ["stucflr-sasfs30", "ibspdatauat"]),
    ("taxfilersvm", ["taxfiler", "taxadmin"]) ]

/-- Embeds `remap_filer_aliases(filer)`: lower-case the input, scan the alias
table in order, return the first canonical name whose alternate list
contains the input, else the lower-cased input. -/
def remap_filer_aliases (filer : String) : String :=
  let f := pyLower filer
  match FILER_ALIASES.find? (fun kv => kv.2.contains f) with
  | some kv => kv.1
  | none => f

/-- One step of Python `str.split("/", ...)`: the chunk before the first
`/` and, if a `/` was found, the remainder after it. -/
def splitOnce : List Char → List Char × Option (List Char)
  | [] => ([], none)
  | c :: tl =>
    if c = '/' then ([], some tl)
    else
      let p := splitOnce tl
      (c :: p.1, p.2)

/-- Python `path.split("/", maxsplit=2)`: one, two or three chunks; the
third chunk keeps any internal `/`.  (Python's `split` with an explicit
separator never returns an empty list: `"".split("/") == [""]`.) -/
def pySplitSlash2 (cs : List Char) : List (List Char) :=
  match splitOnce cs with
  | (a, none) => [a]
  | (a, some r1) =>
    match splitOnce r1 with
    | (b, none) => [a, b]
    | (b, some r2) => [a, b, r2]

/-- Embeds `get_components(path)`: name of filer, share, and object key.  The
four branches mirror the `len(components)` tests of the source
(`0`, `1`, `2`, else). -/
def get_components (path : String) : Option String × Option String × Option String :=
  match pySplitSlash2 (process_filer_path path).toList with
  | [] => (none, none, none)
  | [c0] => (some (remap_filer_aliases (String.mk c0)), none, none)
  | [c0, c1] =>
    (some (remap_filer_aliases (String.mk c0)), some (String.mk c1), none)
  | c0 :: c1 :: c2 :: _ =>
    (some (remap_filer_aliases (String.mk c0)), some (String.mk c1),
     some (String.mk (c2.dropWhile (fun x => x == '/'))))

/-- The process environment as an injected lookup (spec §9 models the
environment as a key-value lookup function).  `env k = none` means the
variable `k` is unset. -/
abbrev Env : Type := String → Option String

/-- Errors of the module.  The source raises `OSError` (for the
`get_mc_path` validations) and `KeyError` (for `os.environ[k]` on an
absent `k`); the spec's taxonomy calls these `ConfigurationError` and
`MissingEnvironmentVariable`. -/
inductive FilerError where
  | missingFilerName
  | missingShareName
  | bucketNotFound
  | missingEnvVar (name : String)
  deriving DecidableEq, Repr

instance {ε α : Type} [DecidableEq ε] [DecidableEq α] : DecidableEq (Except ε α) :=
  fun x y =>
    match x, y with
    | Except.ok a, Except.ok b =>
      if h : a = b then isTrue (by rw [h]) else isFalse (by simp [h])
    | Except.ok _, Except.error _ => isFalse (by simp)
    | Except.error _, Except.ok _ => isFalse (by simp)
    | Except.error e, Except.error f =>
      if h : e = f then isTrue (by rw [h]) else isFalse (by simp [h])

/-- Models `os.environ[k]`: hard lookup, raises `KeyError` when absent. -/
def environGet (env : Env) (k : String) : Except FilerError String :=
  match env k with
  | some v => Except.ok v
  | none => Except.error (FilerError.missingEnvVar k)

/-- Python `f"{x}"` on an optional string: `None` prints as `"None"`. -/
def pyStr (x : Option String) : String :=
  match x with
  | some s => s
  | none => "None"

/-- Embeds `get_filer_env_config(path)`: the 5-tuple
`(url, access_key, secret_key, bucket_name, object_key)`.  Each of
url/access/secret is `os.environ[f"{filer}_..."]` when the filer is not
`None` (hard lookups), and the bucket is `os.environ[f"{filer}_{share}"]`
when the share is not `None` (also a hard lookup in the source). -/
def get_filer_env_config (env : Env) (path : String) :
    Except FilerError
      (Option String × Option String × Option String × Option String × Option String) :=
  match get_components path with
  | (filer_name, share_name, object_key) => do
    let url ← match filer_name with
      | some f => Except.map some (environGet env (f ++ "_url"))
      | none => Except.ok none
    let access_key ← match filer_name with
      | some f => Except.map some (environGet env (f ++ "_access"))
      | none => Except.ok none
    let secret_key ← match filer_name with
      | some f => Except.map some (environGet env (f ++ "_secret"))
      | none => Except.ok none
    let bucket_name ← match share_name with
      | some s => Except.map some (environGet env (pyStr filer_name ++ "_" ++ s))
      | none => Except.ok none
    Except.ok (url, access_key, secret_key, bucket_name, object_key)

/-- Embeds `get_mc_path(path)`: the MinIO client path `{filer}/{bucket}/{key}`,
or an error.  The validations and the soft `os.getenv` bucket lookup
followed by an explicit raise mirror the source. -/
def get_mc_path (env : Env) (path : String) : Except FilerError String :=
  match get_components path with
  | (filer_name, share_name, object_key) =>
    match filer_name with
    | none => Except.error FilerError.missingFilerName
    | some f =>
      if f.length = 0 then Except.error FilerError.missingFilerName
      else
        match share_name with
        | none => Except.error FilerError.missingShareName
        | some s =>
          if s.length = 0 then Except.error FilerError.missingShareName
          else
            match env (f ++ "_" ++ s) with
            | none => Except.error FilerError.bucketNotFound
            | some bucket =>
              let key := match object_key with
                | none => ""
                | some k => k
              Except.ok (f ++ "/" ++ bucket ++ "/" ++ key)

/-- Whether `cs` contains no newline: a Python `.*` (without
`re.DOTALL`) can match exactly the newline-free strings. -/
def noNewline (cs : List Char) : Bool :=
  !cs.contains '\n'

/-- Whether `t`, as a whole line, is matched by
`(.*filersvm|st.*svm)_url` anchored on both sides: either
`t = a ++ "filersvm_url"` with `a` newline-free, or
`t = "st" ++ b ++ "svm_url"` with `b` newline-free. -/
def matchFilerUrlCore (t : List Char) : Bool :=
  ("filersvm_url".toList.isSuffixOf t
      && noNewline (t.take (t.length - 12)))
  || (match t with
      | 's' :: 't' :: rest =>
        "svm_url".toList.isSuffixOf rest && noNewline (rest.take (rest.length - 7))
      | _ => false)

/-- Models `re.match(r"^(.*filersvm|st.*svm)_url$", s)` as a boolean: in
Python, `$` matches at the end of the string or just before a final
newline, hence the second disjunct. -/
def pyMatchFilerUrl (s : String) : Bool :=
  matchFilerUrlCore s.toList
  || (match s.toList.getLast? with
      | some c => c = '\n' && matchFilerUrlCore s.toList.dropLast
      | none => false)

/-- Models `re.sub(r"_url$", "", u)`: remove a final `"_url"`, where `$` also
matches just before a final newline. -/
def pySubUrlEnd (u : String) : String :=
  let t := u.toList
  if "_url".toList.isSuffixOf t then
    String.mk (t.take (t.length - 4))
  else
    match t.getLast? with
    | some c =>
      if c = '\n' && "_url".toList.isSuffixOf t.dropLast then
        String.mk (t.dropLast.take (t.dropLast.length - 4) ++ ['\n'])
      else u
    | none => u

/-- One record of `get_all_filers`. -/
structure FilerRecord where
  base : String
  url : Option String
  access_key : Option String
  secret_key : Option String
  deriving DecidableEq, Repr

/-- Models `os.getenv(k)` over the association-list view of the environment
(first binding wins; `os.environ` cannot bind a key twice). -/
def getenvList (e : List (String × String)) (k : String) : Option String :=
  Option.map Prod.snd (e.find? (fun kv => kv.1 == k))

/-- Embeds `get_all_filers()`: filter the environment's variable names by the
discovery regex, strip the `_url` suffix to get the bases, and build one
record per base with soft `os.getenv` lookups. -/
def get_all_filers (e : List (String × String)) : List FilerRecord :=
  let url_keys := (e.map Prod.fst).filter pyMatchFilerUrl
  let all_bases := url_keys.map pySubUrlEnd
  all_bases.map (fun base =>
    { base := base
      url := getenvList e (base ++ "_url")
      access_key := getenvList e (base ++ "_access")
      secret_key := getenvList e (base ++ "_secret") })

/-- Embeds `check_filer_path(path)`: true if the path is a filer path.
`os.path.abspath` depends on the process working directory; it is
modelled as an injected oracle `abspath`, so that properties quantified
over `abspath` hold in every working directory. -/
def check_filer_path (abspath : String → String) (path : String) : Bool :=
  let p := path.toList.map toSlash
  if "//".toList.isPrefixOf p then true
  else "/home/jovyan/filers/".toList.isPrefixOf (abspath (String.mk p)).toList

/-- Whether one of the three marker patterns
(`^[\/\.]*home[\/]+`, `^[\/\.]*jovyan[\/]+`, `^[\/\.]*filers{0,1}[\/]+`,
all `re.IGNORECASE`) matches at the start of `s`.  A second
`process_filer_path` pass strips something precisely on such strings. -/
def startsWithMarker (s : String) : Bool :=
  (matchMarker "home".toList false s.toList).isSome
  || (matchMarker "jovyan".toList false s.toList).isSome
  || (matchMarker "filer".toList true s.toList).isSome

/-- Whether an `Except` computation is an error (a raised exception). -/
def isErr {ε α : Type} : Except ε α → Bool
  | Except.error _ => true
  | Except.ok _ => false

/-- The failure condition of `get_mc_path` as the spec states it:
resolution cannot complete because the filer is none or empty, the share
is none or empty, or the environment has no `{filer}_{share}` bucket
variable. -/
def mc_path_resolution_fails (env : Env) (path : String) : Bool :=
  match get_components path with
  | (none, _, _) => true
  | (some _, none, _) => true
  | (some f, some s, _) => f == "" || s == "" || (env (f ++ "_" ++ s)).isNone

/-- Environment of the spec's `get_mc_path` example:
`fld3filersvm_url=...`, `fld3filersvm_shareA=bucket1`. -/
def envExample : Env := fun k =>
  if k = "fld3filersvm_url" then some "http://x"
  else if k = "fld3filersvm_shareA" then some "bucket1"
  else none

/-- An environment with every variable unset. -/
def envEmpty : Env := fun _ => none

/-- An environment with credentials for the filer `f` but no bucket
variable for any of its shares. -/
def envNoBucket : Env := fun k =>
  if k = "f_url" then some "u"
  else if k = "f_access" then some "a"
  else if k = "f_secret" then some "sec"
  else none

/-- A two-variable environment (as an association list) in which the
filer `afilersvm` has a url and an access key but no secret key. -/
def envListSoft : List (String × String) :=
  [("afilersvm_url", "u1"), ("afilersvm_access", "a1")]

/-- Models `os.path.abspath` as seen from a process whose working directory is
`/cwd1`. -/
def abspathCwd1 : String → String := fun s => "/cwd1/" ++ s

/-- Models `os.path.abspath` as seen from a process whose working directory is
`/cwd2`. -/
def abspathCwd2 : String → String := fun s => "/cwd2/" ++ s

/-! ## Helper lemmas -/

theorem toNat_ofNat_valid {n : Nat} (h : Nat.isValidChar n) :
    (Char.ofNat n).toNat = n := by
  rw [Char.ofNat, dif_pos h]
  rfl

theorem pyUpperChar_map_pyLowerChar {c : Char} (h : c.toNat < 128) :
    (pyUpperChar c).map pyLowerChar = [pyLowerChar c] := by
  by_cases h1 : 97 ≤ c.toNat ∧ c.toNat ≤ 122
  · have ht : (Char.ofNat (c.toNat - 32)).toNat = c.toNat - 32 :=
      toNat_ofNat_valid (Or.inl (by omega))
    simp only [pyUpperChar, pyLowerChar, if_pos h1, List.map_cons,
      List.map_nil, ht]
    rw [if_pos (show 65 ≤ c.toNat - 32 ∧ c.toNat - 32 ≤ 90 by omega)]
    rw [if_neg (show ¬ (65 ≤ c.toNat ∧ c.toNat ≤ 90) by omega)]
    rw [if_neg (show ¬ ((192 ≤ c.toNat ∧ c.toNat ≤ 222) ∧ ¬ c.toNat = 215) by omega)]
    have harith : c.toNat - 32 + 32 = c.toNat := by omega
    rw [harith, Char.ofNat_toNat]
  · simp only [pyUpperChar, if_neg h1,
      if_neg (show ¬ c.toNat = 223 by omega),
      if_neg (show ¬ ((224 ≤ c.toNat ∧ c.toNat ≤ 254) ∧ ¬ c.toNat = 247) by omega),
      if_neg (show ¬ c.toNat = 181 by omega),
      if_neg (show ¬ c.toNat = 255 by omega),
      List.map_cons, List.map_nil]

theorem pyLowerChar_idem_of_ascii {c : Char} (h : c.toNat < 128) :
    pyLowerChar (pyLowerChar c) = pyLowerChar c := by
  by_cases h1 : 65 ≤ c.toNat ∧ c.toNat ≤ 90
  · have ht : (Char.ofNat (c.toNat + 32)).toNat = c.toNat + 32 :=
      toNat_ofNat_valid (Or.inl (by omega))
    simp only [pyLowerChar, if_pos h1, ht]
    rw [if_neg (show ¬ (65 ≤ c.toNat + 32 ∧ c.toNat + 32 ≤ 90) by omega)]
    rw [if_neg (show ¬ ((192 ≤ c.toNat + 32 ∧ c.toNat + 32 ≤ 222) ∧
      ¬ c.toNat + 32 = 215) by omega)]
  · simp only [pyLowerChar, if_neg h1,
      if_neg (show ¬ ((192 ≤ c.toNat ∧ c.toNat ≤ 222) ∧ ¬ c.toNat = 215) by omega)]

theorem toList_mk (l : List Char) : (String.mk l).toList = l := rfl

theorem string_length_zero_iff {s : String} : s.length = 0 ↔ s = "" := by
  cases s with
  | mk l =>
    constructor
    · intro h
      have hl : l = [] := List.eq_nil_of_length_eq_zero h
      subst hl
      rfl
    · intro h
      rw [h]
      rfl

theorem splitOnce_no_slash {a : List Char} (ha : '/' ∉ a) :
    splitOnce a = (a, none) := by
  induction a with
  | nil => rfl
  | cons c tl ih =>
    have hc : ¬ c = '/' := fun h => ha (h ▸ List.mem_cons_self c tl)
    simp [splitOnce, hc, ih (fun h => ha (List.mem_cons_of_mem _ h))]

theorem splitOnce_append {a r : List Char} (ha : '/' ∉ a) :
    splitOnce (a ++ '/' :: r) = (a, some r) := by
  induction a with
  | nil => simp [splitOnce]
  | cons c tl ih =>
    have hc : ¬ c = '/' := fun h => ha (h ▸ List.mem_cons_self c tl)
    simp [splitOnce, hc, ih (fun h => ha (List.mem_cons_of_mem _ h))]

theorem pySplitSlash2_ne_nil (cs : List Char) : pySplitSlash2 cs ≠ [] := by
  rcases h : splitOnce cs with ⟨a, r⟩
  cases r with
  | none => simp [pySplitSlash2, h]
  | some r1 =>
    rcases h2 : splitOnce r1 with ⟨b, r2⟩
    cases r2 <;> simp [pySplitSlash2, h, h2]

theorem matchWordCI_suffix {w cs r : List Char} (h : matchWordCI w cs = some r) :
    r <:+ cs := by
  induction w generalizing cs with
  | nil =>
    simp only [matchWordCI, Option.some.injEq] at h
    exact h ▸ List.suffix_refl cs
  | cons w ws ih =>
    cases cs with
    | nil => simp [matchWordCI] at h
    | cons c tl =>
      by_cases hc : c.toLower = w
      · simp only [matchWordCI, if_pos hc] at h
        exact (ih h).trans (List.suffix_cons c tl)
      · simp [matchWordCI, hc] at h

theorem matchSlashes_suffix {cs r : List Char} (h : matchSlashes cs = some r) :
    r <:+ cs := by
  cases cs with
  | nil => simp [matchSlashes] at h
  | cons c tl =>
    by_cases hc : c = '/'
    · simp only [matchSlashes, if_pos hc, Option.some.injEq] at h
      exact h ▸ ((List.dropWhile_suffix _).trans (List.suffix_cons c tl))
    · simp [matchSlashes, hc] at h

theorem matchSOptThenSlashes_suffix {cs r : List Char}
    (h : matchSOptThenSlashes cs = some r) : r <:+ cs := by
  cases cs with
  | nil => simp [matchSOptThenSlashes] at h
  | cons c tl =>
    by_cases hs : c.toLower = 's'
    · simp only [matchSOptThenSlashes, if_pos hs] at h
      exact (matchSlashes_suffix h).trans (List.suffix_cons c tl)
    · simp [matchSOptThenSlashes, hs] at h

theorem matchMarker_suffix {w : List Char} {o : Bool} {cs r : List Char}
    (h : matchMarker w o cs = some r) : r <:+ cs := by
  unfold matchMarker at h
  split at h
  · cases h
  · rename_i r1 h1
    have hr1 : r1 <:+ cs :=
      (matchWordCI_suffix h1).trans (List.dropWhile_suffix _)
    split at h
    · rename_i r2 h2
      cases h
      cases o with
      | false => simp at h2
      | true =>
        simp only [if_true] at h2
        exact (matchSOptThenSlashes_suffix h2).trans hr1
    · exact (matchSlashes_suffix h).trans hr1

theorem stripMarker_suffix (w : List Char) (o : Bool) (cs : List Char) :
    stripMarker w o cs <:+ cs := by
  unfold stripMarker
  rcases h : matchMarker w o cs with _ | r
  · exact List.suffix_refl cs
  · exact matchMarker_suffix h

theorem processCore_suffix (cs : List Char) :
    processCore cs <:+ cs.map toSlash := by
  simp only [processCore]
  exact (List.dropWhile_suffix _).trans
    ((stripMarker_suffix _ _ _).trans
      ((stripMarker_suffix _ _ _).trans (stripMarker_suffix _ _ _)))

theorem not_backslash_mem_processCore (cs : List Char) :
    '\\' ∉ processCore cs := by
  intro hmem
  have h1 : '\\' ∈ cs.map toSlash := (processCore_suffix cs).subset hmem
  rcases List.mem_map.mp h1 with ⟨d, _, hd⟩
  by_cases hdd : d = '\\' <;> simp [toSlash, hdd] at hd

theorem dropWhile_dropWhile {α : Type} (p : α → Bool) (l : List α) :
    (l.dropWhile p).dropWhile p = l.dropWhile p := by
  induction l with
  | nil => rfl
  | cons c tl ih =>
    by_cases hc : p c
    · simp [List.dropWhile_cons, hc, ih]
    · simp [List.dropWhile_cons, hc]

theorem dropWhile_processCore (cs : List Char) :
    (processCore cs).dropWhile isDotSlash = processCore cs := by
  simp only [processCore]
  exact dropWhile_dropWhile _ _

theorem map_eq_self_of_fix {α : Type} {l : List α} {f : α → α}
    (h : ∀ c ∈ l, f c = c) : l.map f = l := by
  induction l with
  | nil => rfl
  | cons c tl ih =>
    simp only [List.map_cons, h c (List.mem_cons_self c tl)]
    rw [ih (fun x hx => h x (List.mem_cons_of_mem _ hx))]

theorem stripMarker_of_not_isSome {w : List Char} {o : Bool} {cs : List Char}
    (h : (matchMarker w o cs).isSome = false) : stripMarker w o cs = cs := by
  unfold stripMarker
  rcases hm : matchMarker w o cs with _ | r
  · rfl
  · rw [hm] at h
    cases h

theorem except_bind_ok {ε α β : Type} (a : α) (f : α → Except ε β) :
    (Except.ok a >>= f) = f a := rfl

theorem except_bind_error {ε α β : Type} (e : ε) (f : α → Except ε β) :
    ((Except.error e : Except ε α) >>= f) = Except.error e := rfl

theorem except_map_ok {ε α β : Type} (g : α → β) (a : α) :
    Except.map g (Except.ok a : Except ε α) = Except.ok (g a) := rfl

theorem except_map_error {ε α β : Type} (g : α → β) (e : ε) :
    Except.map g (Except.error e : Except ε α) = Except.error e := rfl

theorem flatMap_upper_map_lower {l : List Char} (h : ∀ c ∈ l, c.toNat < 128) :
    (l.flatMap pyUpperChar).map pyLowerChar = l.map pyLowerChar := by
  induction l with
  | nil => rfl
  | cons c tl ih =>
    simp only [List.flatMap_cons, List.map_append, List.map_cons]
    rw [pyUpperChar_map_pyLowerChar (h c (List.mem_cons_self c tl)),
      ih (fun x hx => h x (List.mem_cons_of_mem _ hx))]
    rfl

theorem map_lower_map_lower {l : List Char} (h : ∀ c ∈ l, c.toNat < 128) :
    (l.map pyLowerChar).map pyLowerChar = l.map pyLowerChar := by
  induction l with
  | nil => rfl
  | cons c tl ih =>
    simp only [List.map_cons]
    rw [pyLowerChar_idem_of_ascii (h c (List.mem_cons_self c tl)),
      ih (fun x hx => h x (List.mem_cons_of_mem _ hx))]

theorem pyLower_pyUpper_of_ascii {x : String} (h : ∀ c ∈ x.toList, c.toNat < 128) :
    pyLower (pyUpper x) = pyLower (pyLower x) := by
  simp only [pyLower, pyUpper, toList_mk]
  rw [flatMap_upper_map_lower h, map_lower_map_lower h]

theorem get_components_of_empty {p : String} (h : process_filer_path p = "") :
    get_components p = (some "", none, none) := by
  simp only [get_components]
  rw [h]
  decide

/-! ## Claim theorems -/

/-- Claim C1: for every path whose components resolve to a non-empty
filer and non-empty share, and whose environment maps `{filer}_{share}`
to a bucket, `get_mc_path` returns exactly `{filer}/{bucket}/{object_key}`,
a missing object key being replaced by the empty string. -/
theorem get_mc_path_success (env : Env) (p f s : String) (k : Option String)
    (b : String) (hc : get_components p = (some f, some s, k))
    (hf : f ≠ "") (hs : s ≠ "") (hb : env (f ++ "_" ++ s) = some b) :
    get_mc_path env p = Except.ok (f ++ "/" ++ b ++ "/" ++ k.getD "") := by
  have hf0 : ¬ f.length = 0 := fun h0 => hf (string_length_zero_iff.mp h0)
  have hs0 : ¬ s.length = 0 := fun h0 => hs (string_length_zero_iff.mp h0)
  cases k with
  | none => simp [get_mc_path, hc, hf0, hs0, hb]
  | some kk => simp [get_mc_path, hc, hf0, hs0, hb]

/-- Claim C1, spec example: with environment `fld3filersvm_url=...`,
`fld3filersvm_shareA=bucket1`, `get_mc_path("fld3file1/shareA/k")`
returns `"fld3filersvm/bucket1/k"`. -/
theorem get_mc_path_success_instance :
    get_mc_path envExample "fld3file1/shareA/k" =
      Except.ok "fld3filersvm/bucket1/k" := by
  have h := get_mc_path_success envExample "fld3file1/shareA/k"
    "fld3filersvm" "shareA" (some "k") "bucket1"
    (by decide) (by decide) (by decide) (by decide)
  exact h.trans (by decide)

/-- Claim C8: the triple returned by `get_components` is populated
left-to-right — a non-none share implies a non-none filer, and a
non-none object key implies a non-none share. -/
theorem get_components_left_to_right (p : String) :
    ((get_components p).2.1 ≠ none → (get_components p).1 ≠ none)
  ∧ ((get_components p).2.2 ≠ none → (get_components p).2.1 ≠ none) := by
  rcases h : pySplitSlash2 (process_filer_path p).data with _ | ⟨c0, _ | ⟨c1, _ | ⟨c2, rest⟩⟩⟩ <;>
    simp [get_components, h]

/-- Claim C8, instance: on `"a/b/c"` the share is populated and so is
the filer. -/
theorem get_components_left_to_right_instance :
    (get_components "a/b/c").1 ≠ none :=
  (get_components_left_to_right "a/b/c").1 (by decide)

/-- Claim C9: for every input that, after replacing backslashes with
forward slashes, begins with `//`, `check_filer_path` returns true
without consulting the filesystem: the result is true under every
`abspath` oracle (i.e. in every working directory), hence identical
across any two runs. -/
theorem check_filer_path_unc (a1 a2 : String → String) (p : String)
    (h : "//".toList.isPrefixOf (p.toList.map toSlash) = true) :
    check_filer_path a1 p = true ∧ check_filer_path a1 p = check_filer_path a2 p := by
  simp at h
  unfold check_filer_path
  simp [h]

/-- Claim C9, instance: `check_filer_path("//host/share/path")` is true
in two different working directories. -/
theorem check_filer_path_unc_instance :
    check_filer_path abspathCwd1 "//host/share/path" = true ∧
      check_filer_path abspathCwd1 "//host/share/path" =
        check_filer_path abspathCwd2 "//host/share/path" :=
  check_filer_path_unc abspathCwd1 abspathCwd2 "//host/share/path" (by decide)

/-- Claim C10: splitting any string on `/` yields at least one part, so
the zero-parts branch of `get_components` is unreachable and
`get_components ""` returns an empty-string filer `(some "", none, none)`;
consequently `get_filer_env_config` on an input that normalizes to the
empty string does attempt the hard environment lookup of `"_url"`, and
`get_mc_path` on such input fails via its empty-string filer check. -/
theorem get_components_never_empty :
    (∀ cs : List Char, pySplitSlash2 cs ≠ [])
  ∧ get_components "" = (some "", none, none)
  ∧ (∀ p : String, process_filer_path p = "" →
      get_components p = (some "", none, none))
  ∧ (∀ (p : String) (env : Env), process_filer_path p = "" → env "_url" = none →
      get_filer_env_config env p = Except.error (FilerError.missingEnvVar "_url"))
  ∧ (∀ (p : String) (env : Env), process_filer_path p = "" →
      get_mc_path env p = Except.error FilerError.missingFilerName) := by
  refine ⟨pySplitSlash2_ne_nil, by decide, fun p h => get_components_of_empty h, ?_, ?_⟩
  · intro p env h henv
    have hc := get_components_of_empty h
    have hk : ("" ++ "_url" : String) = "_url" := rfl
    simp only [get_filer_env_config, hc, environGet, hk, henv,
      except_map_error, except_bind_error]
  · intro p env h
    have hc := get_components_of_empty h
    simp [get_mc_path, hc]

/-- Claim C10, instance: the empty path normalizes to the empty string,
and `get_mc_path` on it fails via the empty-string filer check while
`get_filer_env_config` attempts (and fails) the `"_url"` lookup. -/
theorem get_components_never_empty_instance :
    get_filer_env_config envEmpty "" = Except.error (FilerError.missingEnvVar "_url") ∧
      get_mc_path envEmpty "" = Except.error FilerError.missingFilerName :=
  ⟨get_components_never_empty.2.2.2.1 "" envEmpty (by decide) rfl,
   get_components_never_empty.2.2.2.2 "" envEmpty (by decide)⟩

/-- Claim C2: `get_mc_path` raises a `ConfigurationError` exactly when
resolution cannot complete — filer none or empty ("missing filer name"),
share none or empty ("missing share name", in particular for a bare
filer path), or no `{filer}_{share}` environment variable ("bucket not
found").  Determinism for a fixed input and environment is definitional
here, since the embedding is a pure function of `(env, path)`. -/
theorem get_mc_path_error_cases (env : Env) (p : String) :
    (isErr (get_mc_path env p) = true ↔ mc_path_resolution_fails env p = true)
  ∧ (((get_components p).1 = none ∨ (get_components p).1 = some "") →
      get_mc_path env p = Except.error FilerError.missingFilerName)
  ∧ (∀ f, (get_components p).1 = some f → ¬ f = "" →
      ((get_components p).2.1 = none ∨ (get_components p).2.1 = some "") →
      get_mc_path env p = Except.error FilerError.missingShareName)
  ∧ (∀ f s, (get_components p).1 = some f → ¬ f = "" →
      (get_components p).2.1 = some s → ¬ s = "" →
      env (f ++ "_" ++ s) = none →
      get_mc_path env p = Except.error FilerError.bucketNotFound) := by
  rcases hc : get_components p with ⟨fq, sq, kq⟩
  refine ⟨?_, ?_, ?_, ?_⟩
  · cases fq with
    | none => simp [get_mc_path, mc_path_resolution_fails, hc, isErr]
    | some f =>
      by_cases hf : f.length = 0
      · have hfe : f = "" := string_length_zero_iff.mp hf
        subst hfe
        cases sq <;> simp [get_mc_path, mc_path_resolution_fails, hc, isErr]
      · have hfe : ¬ f = "" := fun he => hf (by rw [he]; rfl)
        cases sq with
        | none => simp [get_mc_path, mc_path_resolution_fails, hc, isErr, hf]
        | some s =>
          by_cases hs : s.length = 0
          · have hse : s = "" := string_length_zero_iff.mp hs
            subst hse
            simp [get_mc_path, mc_path_resolution_fails, hc, isErr, hf]
          · have hse : ¬ s = "" := fun he => hs (by rw [he]; rfl)
            rcases hb : env (f ++ "_" ++ s) with _ | b <;>
              simp [get_mc_path, mc_path_resolution_fails, hc, isErr, hf, hs, hfe, hse, hb]
  · intro h1
    rcases h1 with h1 | h1 <;> simp at h1 <;> subst h1 <;>
      simp [get_mc_path, hc]
  · intro f hf hfne hor
    simp at hf
    subst hf
    have hf0 : ¬ f.length = 0 := fun h0 => hfne (string_length_zero_iff.mp h0)
    rcases hor with h1 | h1 <;> simp at h1 <;> subst h1 <;>
      simp [get_mc_path, hc, hf0]
  · intro f s hf hfne hs hsne hb
    simp at hf hs
    subst hf
    subst hs
    have hf0 : ¬ f.length = 0 := fun h0 => hfne (string_length_zero_iff.mp h0)
    have hs0 : ¬ s.length = 0 := fun h0 => hsne (string_length_zero_iff.mp h0)
    simp [get_mc_path, hc, hf0, hs0, hb]

/-- Claim C2, instance: a bare filer path with no share segment raises
"missing share name". -/
theorem get_mc_path_error_cases_instance :
    get_mc_path envEmpty "fld3file1" = Except.error FilerError.missingShareName :=
  (get_mc_path_error_cases envEmpty "fld3file1").2.2.1 "fld3filersvm"
    (by decide) (by decide) (Or.inl (by decide))

/-- Claim C3: `get_components` splits the normalized path on `/` into at
most three parts — the first part is passed through
`remap_filer_aliases`, the second becomes the share verbatim, and the
third (which retains internal slashes) becomes the object key with
leading `/` stripped, an all-slash third part yielding the empty string
rather than none. -/
theorem get_components_splits (p : String) :
    (∀ a : List Char, (process_filer_path p).data = a → '/' ∉ a →
       get_components p = (some (remap_filer_aliases (String.mk a)), none, none))
  ∧ (∀ a b : List Char, (process_filer_path p).data = a ++ '/' :: b →
       '/' ∉ a → '/' ∉ b →
       get_components p =
         (some (remap_filer_aliases (String.mk a)), some (String.mk b), none))
  ∧ (∀ a b c : List Char, (process_filer_path p).data = a ++ '/' :: (b ++ '/' :: c) →
       '/' ∉ a → '/' ∉ b →
       get_components p =
         (some (remap_filer_aliases (String.mk a)), some (String.mk b),
          some (String.mk (c.dropWhile (fun x => x == '/'))))) := by
  refine ⟨?_, ?_, ?_⟩
  · intro a h ha
    simp only [get_components, String.toList, h, pySplitSlash2,
      splitOnce_no_slash ha]
  · intro a b h ha hb
    simp only [get_components, String.toList, h, pySplitSlash2,
      splitOnce_append ha, splitOnce_no_slash hb]
  · intro a b c h ha hb
    simp only [get_components, String.toList, h, pySplitSlash2,
      splitOnce_append ha, splitOnce_append hb]

/-- Claim C3, instances: the spec example, and an all-slash object key
collapsing to the empty string (not none). -/
theorem get_components_splits_instance :
    get_components "fld3file1/shareA/dir/obj.txt" =
      (some "fld3filersvm", some "shareA", some "dir/obj.txt") ∧
    get_components "fld3file1/shareA///" =
      (some "fld3filersvm", some "shareA", some "") := by
  constructor
  · have h := (get_components_splits "fld3file1/shareA/dir/obj.txt").2.2
      "fld3file1".data "shareA".data "dir/obj.txt".data
      (by decide) (by decide) (by decide)
    exact h.trans (by decide)
  · have h := (get_components_splits "fld3file1/shareA///").2.2
      "fld3file1".data "shareA".data "//".data
      (by decide) (by decide) (by decide)
    exact h.trans (by decide)

/-- Claim C4 (amended): `get_filer_env_config` performs hard lookups
uniformly.  When the filer resolves, each absent `{filer}_url`,
`{filer}_access`, `{filer}_secret` raises a missing-variable error; and
— contrary to the original claim — when the share also resolves, an
absent `{filer}_{share}` bucket variable likewise raises (the source
uses `os.environ[...]`, not `os.getenv`).  The only asymmetry is in the
guards: credentials are guarded on the filer, the bucket on the share. -/
theorem get_filer_env_config_hard_lookups (env : Env) (p f : String)
    (hf : (get_components p).1 = some f) :
    (env (f ++ "_url") = none →
       get_filer_env_config env p =
         Except.error (FilerError.missingEnvVar (f ++ "_url")))
  ∧ (∀ u, env (f ++ "_url") = some u → env (f ++ "_access") = none →
       get_filer_env_config env p =
         Except.error (FilerError.missingEnvVar (f ++ "_access")))
  ∧ (∀ u a, env (f ++ "_url") = some u → env (f ++ "_access") = some a →
       env (f ++ "_secret") = none →
       get_filer_env_config env p =
         Except.error (FilerError.missingEnvVar (f ++ "_secret")))
  ∧ (∀ u a sec sh, env (f ++ "_url") = some u → env (f ++ "_access") = some a →
       env (f ++ "_secret") = some sec → (get_components p).2.1 = some sh →
       env (f ++ "_" ++ sh) = none →
       get_filer_env_config env p =
         Except.error (FilerError.missingEnvVar (f ++ "_" ++ sh)))
  ∧ (∀ u a sec sh b, env (f ++ "_url") = some u → env (f ++ "_access") = some a →
       env (f ++ "_secret") = some sec → (get_components p).2.1 = some sh →
       env (f ++ "_" ++ sh) = some b →
       get_filer_env_config env p =
         Except.ok (some u, some a, some sec, some b, (get_components p).2.2)) := by
  rcases hc : get_components p with ⟨fq, sq, kq⟩
  rw [hc] at hf
  simp at hf
  subst hf
  refine ⟨?_, ?_, ?_, ?_, ?_⟩
  · intro h1
    simp [get_filer_env_config, hc, environGet, h1,
      except_map_error, except_bind_error]
  · intro u h1 h2
    simp [get_filer_env_config, hc, environGet, h1, h2,
      except_map_ok, except_bind_ok, except_map_error, except_bind_error]
  · intro u a h1 h2 h3
    simp [get_filer_env_config, hc, environGet, h1, h2, h3,
      except_map_ok, except_bind_ok, except_map_error, except_bind_error]
  · intro u a sec sh h1 h2 h3 hsh hb
    simp at hsh
    subst hsh
    simp [get_filer_env_config, hc, environGet, h1, h2, h3, hb, pyStr,
      except_map_ok, except_bind_ok, except_map_error, except_bind_error]
  · intro u a sec sh b h1 h2 h3 hsh hb
    simp at hsh
    subst hsh
    simp [get_filer_env_config, hc, environGet, h1, h2, h3, hb, pyStr,
      except_map_ok, except_bind_ok]

/-- Claim C4, counterexample to the original claim: with the share
resolved and credentials present but `f_s` unset, `get_filer_env_config`
raises (models `KeyError` from `os.environ["f_s"]`) instead of returning
a `none` bucket. -/
theorem get_filer_env_config_bucket_raises :
    get_filer_env_config envNoBucket "f/s" =
      Except.error (FilerError.missingEnvVar "f_s") := by decide

/-- Claim C4, instances of the amended behaviour: a missing access key
raises, and so does a missing bucket variable. -/
theorem get_filer_env_config_hard_lookups_instance :
    get_filer_env_config envExample "fld3file1/shareA/k" =
      Except.error (FilerError.missingEnvVar "fld3filersvm_access") ∧
    get_filer_env_config envNoBucket "f/sh2" =
      Except.error (FilerError.missingEnvVar "f_sh2") := by
  constructor
  · have h := (get_filer_env_config_hard_lookups envExample "fld3file1/shareA/k"
      "fld3filersvm" (by decide)).2.1 "http://x" (by decide) (by decide)
    exact h.trans (by decide)
  · have h := (get_filer_env_config_hard_lookups envNoBucket "f/sh2" "f"
      (by decide)).2.2.2.1 "u" "a" "sec" "sh2"
      (by decide) (by decide) (by decide) (by decide) (by decide)
    exact h.trans (by decide)

theorem processCore_eq_self {q : List Char}
    (hb : q.map toSlash = q)
    (h1 : (matchMarker "home".toList false q).isSome = false)
    (h2 : (matchMarker "jovyan".toList false q).isSome = false)
    (h3 : (matchMarker "filer".toList true q).isSome = false)
    (hd : q.dropWhile isDotSlash = q) :
    processCore q = q := by
  simp only [processCore]
  rw [hb, stripMarker_of_not_isSome h1, stripMarker_of_not_isSome h2,
    stripMarker_of_not_isSome h3, hd]

/-- Claim C5, counterexample: `process_filer_path` strips each anchored
marker at most once per call, so `"home/home/x"` normalizes to
`"home/x"` and a second pass strips again, to `"x"`. -/
theorem process_filer_path_not_idempotent :
    process_filer_path (process_filer_path "home/home/x") ≠
      process_filer_path "home/home/x" := by decide

/-- Claim C5 (amended): `process_filer_path` is idempotent on every
input whose normalized form does not itself begin with a marker pattern
(a case-insensitive `home`, `jovyan` or `filer(s)` segment after leading
slashes/dots, followed by at least one slash); on such fixed points a
second pass strips nothing further. -/
theorem process_filer_path_idem_no_marker (p : String)
    (h : startsWithMarker (process_filer_path p) = false) :
    process_filer_path (process_filer_path p) = process_filer_path p := by
  simp only [startsWithMarker, process_filer_path, toList_mk,
    Bool.or_eq_false_iff] at h
  obtain ⟨⟨h1, h2⟩, h3⟩ := h
  simp only [process_filer_path, toList_mk]
  have hb : (processCore p.toList).map toSlash = processCore p.toList := by
    refine map_eq_self_of_fix (fun c hcmem => ?_)
    have hne : ¬ c = '\\' := fun he =>
      not_backslash_mem_processCore p.toList (he ▸ hcmem)
    simp [toSlash, hne]
  exact congrArg String.mk
    (processCore_eq_self hb h1 h2 h3 (dropWhile_processCore _))

/-- Claim C5, instance of the amended statement: `"home/abc"` normalizes
to `"abc"`, which is marker-free, and a second pass is the identity. -/
theorem process_filer_path_idem_no_marker_instance :
    process_filer_path (process_filer_path "home/abc") =
      process_filer_path "home/abc" :=
  process_filer_path_idem_no_marker "home/abc" (by decide)

/-- Claim C6, counterexample to the every-string claim: Python's
one-to-many case mapping breaks case-insensitivity outside ASCII —
`"ß".upper() == "SS"`, so `remap_filer_aliases("ß".upper())` lower-cases
to `"ss"` (not in the alias table, returned as-is) while
`remap_filer_aliases("ß".lower())` returns `"ß"`. -/
theorem remap_filer_aliases_not_case_insensitive :
    remap_filer_aliases (pyUpper "ß") ≠ remap_filer_aliases (pyLower "ß") := by
  decide

/-- Claim C6 (amended): `remap_filer_aliases` is total (the embedding is
a total function by construction, matching the source, which can only
lower-case and scan a static table); upper-casing or lower-casing the
input first gives the same result for every ASCII string — in
particular for every alias-table entry, which is how the spec's §8
phrases the property — and every canonical name of the alias table maps
to itself (no canonical name appears as an alternate).  The unrestricted
every-string version fails on non-ASCII input such as `"ß"`. -/
theorem remap_filer_aliases_ascii_case_insensitive :
    (∀ x : String, (∀ c ∈ x.toList, c.toNat < 128) →
       remap_filer_aliases (pyUpper x) = remap_filer_aliases (pyLower x))
  ∧ FILER_ALIASES.all (fun kv => remap_filer_aliases kv.1 == kv.1) = true := by
  constructor
  · intro x hx
    simp only [remap_filer_aliases]
    rw [pyLower_pyUpper_of_ascii hx]
  · decide

/-- Claim C6, instance of the amended statement: a mixed-case ASCII
alias resolves identically through `upper` and `lower`, to its
canonical filer. -/
theorem remap_filer_aliases_ascii_case_insensitive_instance :
    remap_filer_aliases (pyUpper "Fld3File1") =
      remap_filer_aliases (pyLower "Fld3File1") ∧
    remap_filer_aliases (pyUpper "Fld3File1") = "fld3filersvm" := by
  have h := remap_filer_aliases_ascii_case_insensitive.1 "Fld3File1" (by decide)
  exact ⟨h, by decide⟩

/-- Claim C7: `get_all_filers` returns exactly one record per
environment variable whose name matches `^(.*filersvm|st.*svm)_url$`
(in iteration order), each record holding the base (the name with the
`_url` suffix stripped) and soft lookups of `{base}_url`,
`{base}_access`, `{base}_secret` — a missing variable yields `none` in
the record, never an exception (the embedding of the soft lookup is the
total function `getenvList`). -/
theorem get_all_filers_enumeration (e : List (String × String)) :
    (get_all_filers e).length = ((e.map Prod.fst).filter pyMatchFilerUrl).length
  ∧ ∀ i (h1 : i < (get_all_filers e).length)
      (h2 : i < ((e.map Prod.fst).filter pyMatchFilerUrl).length),
      (get_all_filers e).get ⟨i, h1⟩ =
        { base := pySubUrlEnd (((e.map Prod.fst).filter pyMatchFilerUrl).get ⟨i, h2⟩)
          url := getenvList e
            (pySubUrlEnd (((e.map Prod.fst).filter pyMatchFilerUrl).get ⟨i, h2⟩) ++ "_url")
          access_key := getenvList e
            (pySubUrlEnd (((e.map Prod.fst).filter pyMatchFilerUrl).get ⟨i, h2⟩) ++ "_access")
          secret_key := getenvList e
            (pySubUrlEnd (((e.map Prod.fst).filter pyMatchFilerUrl).get ⟨i, h2⟩) ++ "_secret") } := by
  constructor
  · simp [get_all_filers]
  · intro i h1 h2
    simp [get_all_filers, List.get_eq_getElem, List.getElem_map]

/-- Claim C7, instance: an environment with a matching url variable and
an access key but no secret key yields exactly one record, whose
`secret_key` is `none`. -/
theorem get_all_filers_enumeration_instance :
    (get_all_filers envListSoft).length = 1 ∧
    (get_all_filers envListSoft).get ⟨0, by decide⟩ =
      { base := "afilersvm", url := some "u1",
        access_key := some "a1", secret_key := none } := by
  constructor
  · exact (get_all_filers_enumeration envListSoft).1.trans (by decide)
  · have h := (get_all_filers_enumeration envListSoft).2 0 (by decide) (by decide)
    exact h.trans (by decide)
